import Mathlib

/-
Verification of the flights-visualisation data pipeline and rendering logic.

Strings of the TypeScript source are modelled as lists of characters
(abbreviation Str below).  JavaScript Map and Set objects are modelled as
insertion-ordered association lists (MapL) and duplicate-free lists, with
operations mirroring the JS semantics (Map.set updates an existing key in
place, otherwise appends; Set.add appends when absent).  Numbers that the
source manipulates asexact integer counts are Nat; coordinates and
ratios are modelled as rationals.  Dates are modelled as seconds counted
from a fixed epoch of the civil time parsed (layout YYYY-MM-DD HH:mm:ss);
this models the JS Date constructor on the one layout the code produces
and consumes, other layouts are conservatively modelled as parse failures.
-/

namespace FV

abbrev Str := List Char

/-- Model of the JS String.prototype.trim applied to a character list. -/
def trimChars (s : Str) : Str :=
  ((s.dropWhile Char.isWhitespace).reverse.dropWhile Char.isWhitespace).reverse

/-- Model of the JS String.prototype.toLowerCase (ASCII range). -/
def toLowerChars (s : Str) : Str := s.map Char.toLower

/-- Model of the JS String.prototype.split on a single separator character. -/
def splitOnChar (sep : Char) : Str → List Str
  | [] => [[]]
  | c :: cs =>
    match splitOnChar sep cs with
    | [] => [[]]
    | r :: rs => if c = sep then [] :: r :: rs else (c :: r) :: rs

/-- Model of Array.prototype.join with a separator. -/
def joinSep (sep : Str) : List Str → Str
  | [] => []
  | [x] => x
  | x :: y :: xs => x ++ sep ++ joinSep sep (y :: xs)

/-- JS Map modelled as an insertion-ordered association list. -/
abbrev MapL (α : Type) := List (Str × α)

/-- Model of Map.prototype.get. -/
def mapGet {α : Type} (m : MapL α) (k : Str) : Option α :=
  (m.find? (fun p => decide (p.1 = k))).map Prod.snd

/-- Model of Map.prototype.has. -/
def mapHas {α : Type} (m : MapL α) (k : Str) : Bool :=
  m.any (fun p => decide (p.1 = k))

/-- Model of Map.prototype.set: update in place when the key exists, else append. -/
def mapSet {α : Type} (m : MapL α) (k : Str) (v : α) : MapL α :=
  if mapHas m k then m.map (fun p => if p.1 = k then (k, v) else p) else m ++ [(k, v)]

/-- Keys of a modelled map, in iteration order. -/
def keysOf {α : Type} (m : MapL α) : List Str := m.map Prod.fst

/-- Model of Set.prototype.add on an insertion-ordered duplicate-free list. -/
def setAdd (s : List Str) (k : Str) : List Str :=
  if k ∈ s then s else s ++ [k]

/-- parseCsvLine accumulator loop: one character at a time, toggling the
in-quotes flag on a double quote, splitting on commas outside quotes. -/
def parseCsvLineAux : Str → Bool → Str → List Str
  | [], _, current => [trimChars current.reverse]
  | c :: rest, inQuotes, current =>
    if c = '"' then parseCsvLineAux rest (!inQuotes) current
    else if c = ',' ∧ inQuotes = false then
      trimChars current.reverse :: parseCsvLineAux rest inQuotes []
    else parseCsvLineAux rest inQuotes (c :: current)

/-- Translation of parseCsvLine (identical in the flights and airports parsers). -/
def parseCsvLine (line : Str) : List Str := parseCsvLineAux line false []

/-- Non-blank lines of the CSV text: split on newline, drop whitespace-only lines. -/
def nonBlankLines (csv : Str) : List Str :=
  (splitOnChar '\n' csv).filter (fun l => decide (trimChars l ≠ []))

/-- Header fields of one header line: tokenized, lower-cased, trimmed. -/
def headersFromLine (line : Str) : List Str :=
  (parseCsvLine line).map (fun h => trimChars (toLowerChars h))

/-- Header fields of a CSV text (empty when the text has no non-blank line). -/
def headersOf (csv : Str) : List Str :=
  match nonBlankLines csv with
  | [] => []
  | headerLine :: _ => headersFromLine headerLine

/-- Data lines of a CSV text: the non-blank lines after the header. -/
def dataLinesOf (csv : Str) : List Str := (nonBlankLines csv).drop 1

/-- Translation of the columnIndex record built by forEach over the headers. -/
def buildColumnIndex (headers : List Str) : MapL Nat :=
  headers.enum.foldl (fun m p => mapSet m p.2 p.1) []

/-- Model of the optional-chaining field access values[idx]?.trim(). -/
def getField (values : List Str) (idx : Option Nat) : Option Str :=
  (idx.bind (fun i => values.get? i)).map trimChars

/-- JS truthiness failure of a string field: undefined or the empty string. -/
def isBlankField (o : Option Str) : Bool :=
  match o with
  | none => true
  | some s => s.isEmpty

/- ===================== dates ===================== -/

/-- Numeric value of a decimal digit character. -/
def digitVal (c : Char) : Nat := c.toNat - '0'.toNat

/-- Gregorian leap-year rule. -/
def isLeapYear (y : Int) : Bool :=
  y % 4 = 0 ∧ (y % 100 ≠ 0 ∨ y % 400 = 0)

/-- Days in a month of the proleptic Gregorian calendar. -/
def daysInMonth (y : Int) (m : Nat) : Nat :=
  if m = 1 then 31 else if m = 2 then (if isLeapYear y then 29 else 28)
  else if m = 3 then 31 else if m = 4 then 30 else if m = 5 then 31
  else if m = 6 then 30 else if m = 7 then 31 else if m = 8 then 31
  else if m = 9 then 30 else if m = 10 then 31 else if m = 11 then 30
  else 31

/-- Days between the civil date and 1970-01-01 (standard era-based algorithm). -/
def daysFromCivil (y : Int) (m d : Nat) : Int :=
  let y2 : Int := if m ≤ 2 then y - 1 else y
  let era : Int := (if 0 ≤ y2 then y2 else y2 - 399) / 400
  let yoe : Int := y2 - era * 400
  let mp : Int := ((m : Int) + 9) % 12
  let doy : Int := (153 * mp + 2) / 5 + (d : Int) - 1
  let doe : Int := yoe * 365 + yoe / 4 - yoe / 100 + doy
  era * 146097 + doe - 719468

/-- Model of the JS Date constructor on the layout YYYY-MM-DD HH:mm:ss, as an
instant in seconds; strings in any other layout are modelled as invalid. -/
def jsDateParse (s : Str) : Option Int :=
  match s with
  | [y1, y2, y3, y4, q1, n1, n2, q2, e1, e2, sp, h1, h2, o1, i1, i2, o2, s1, s2] =>
    if ([y1, y2, y3, y4, n1, n2, e1, e2, h1, h2, i1, i2, s1, s2].all Char.isDigit) ∧
       q1 = '-' ∧ q2 = '-' ∧ sp = ' ' ∧ o1 = ':' ∧ o2 = ':' then
      let y : Int := (1000 * digitVal y1 + 100 * digitVal y2 + 10 * digitVal y3 + digitVal y4 : Nat)
      let mo : Nat := 10 * digitVal n1 + digitVal n2
      let d : Nat := 10 * digitVal e1 + digitVal e2
      let hh : Nat := 10 * digitVal h1 + digitVal h2
      let mi : Nat := 10 * digitVal i1 + digitVal i2
      let ss : Nat := 10 * digitVal s1 + digitVal s2
      if 1 ≤ mo ∧ mo ≤ 12 ∧ 1 ≤ d ∧ d ≤ daysInMonth y mo ∧ hh < 24 ∧ mi < 60 ∧ ss < 60 then
        some (86400 * daysFromCivil y mo d + 3600 * (hh : Int) + 60 * (mi : Int) + (ss : Int))
      else none
    else none
  | _ => none

/-- Translation of parseTimestamp: a blank string is invalid; a string with
exactly three dot-separated components and one space-separated time part is
rewritten from DD.MM.YYYY HH:mm:ss into YYYY-MM-DD HH:mm:ss and parsed; on
failure, and for every other shape, the trimmed string is parsed directly. -/
def parseTimestamp (timestamp : Str) : Option Int :=
  if trimChars timestamp = [] then none
  else
    let trimmed := trimChars timestamp
    let dotResult : Option Int :=
      if trimmed.contains '.' ∧ (splitOnChar '.' trimmed).length = 3 then
        match splitOnChar ' ' trimmed with
        | [datePart, timePart] =>
          match splitOnChar '.' datePart with
          | [day, month, year] => jsDateParse (year ++ "-".data ++ month ++ "-".data ++ day ++ " ".data ++ timePart)
          | _ => none
        | _ => none
      else none
    match dotResult with
    | some d => some d
    | none => jsDateParse trimmed

/- ===================== flights parser ===================== -/

/-- Flight record (timestamps already normalized to instants). -/
structure Flight where
  airline : Str
  flightCode : Str
  departureAirport : Str
  arrivalAirport : Str
  departureTimestampLocal : Int
  arrivalTimestampLocal : Int
deriving DecidableEq

/-- ParseResult record returned by parseFlightsCsv. -/
structure ParseResult where
  flights : List Flight
  errors : List Str
  totalRows : Nat
  successfulRows : Nat
  failedRows : Nat
deriving DecidableEq

/-- The six required flight CSV columns. -/
def REQUIRED_COLUMNS : List Str :=
  ["airline".data, "flight_code".data, "departure_airport".data,
   "arrival_airport".data, "departure_timestamp_local".data,
   "arrival_timestamp_local".data]

/-- Required columns absent from a header list. -/
def missingOf (headers : List Str) : List Str :=
  REQUIRED_COLUMNS.filter (fun col => decide (¬ col ∈ headers))

/-- Required columns missing from the CSV text's header. -/
def missingRequired (csv : Str) : List Str := missingOf (headersOf csv)

/-- The aggregate structural error message naming all missing columns. -/
def missingColumnsMessage (missing : List Str) : Str :=
  "Missing required columns: ".data ++ joinSep ", ".data missing

/-- Per-row error message for blank required fields. -/
def rowMissingFieldsMessage (rowNum : Nat) (fields : List Str) : Str :=
  "Row ".data ++ (Nat.repr rowNum).data ++ ": Missing values for ".data ++
    joinSep ", ".data fields ++ " (empty or not provided)".data

/-- One item of the invalid-timestamp error, value truncated to 30 characters. -/
def invalidTsItem (field : Str) (value : Str) : Str :=
  field ++ "=\"".data ++ value.take 30 ++ "\"".data

/-- Per-row error message for unparseable timestamps. -/
def rowInvalidTsMessage (rowNum : Nat) (items : List Str) : Str :=
  "Row ".data ++ (Nat.repr rowNum).data ++ ": Invalid timestamp format: ".data ++
    joinSep ", ".data items

/-- Translation of one iteration of the parseFlightsCsv row loop: either a
row error message or a parsed Flight.  The try/catch of the source is not
modelled because no expression of the loop body can throw. -/
def parseRow (cidx : MapL Nat) (rowNum : Nat) (line : Str) : Sum Str Flight :=
  let values := parseCsvLine line
  let airline := getField values (mapGet cidx "airline".data)
  let flightCode := getField values (mapGet cidx "flight_code".data)
  let departureAirport := getField values (mapGet cidx "departure_airport".data)
  let arrivalAirport := getField values (mapGet cidx "arrival_airport".data)
  let departureTsStr := getField values (mapGet cidx "departure_timestamp_local".data)
  let arrivalTsStr := getField values (mapGet cidx "arrival_timestamp_local".data)
  let missingFields : List Str :=
    (if isBlankField airline then ["airline".data] else []) ++
    (if isBlankField flightCode then ["flight_code".data] else []) ++
    (if isBlankField departureAirport then ["departure_airport".data] else []) ++
    (if isBlankField arrivalAirport then ["arrival_airport".data] else []) ++
    (if isBlankField departureTsStr then ["departure_timestamp_local".data] else []) ++
    (if isBlankField arrivalTsStr then ["arrival_timestamp_local".data] else [])
  if missingFields ≠ [] then Sum.inl (rowMissingFieldsMessage rowNum missingFields)
  else
    let od := parseTimestamp (departureTsStr.getD [])
    let oa := parseTimestamp (arrivalTsStr.getD [])
    match od, oa with
    | some d, some a =>
      Sum.inr ⟨airline.getD [], flightCode.getD [], departureAirport.getD [],
               arrivalAirport.getD [], d, a⟩
    | _, _ =>
      let items :=
        (if od.isNone then [invalidTsItem "departure_timestamp_local".data (departureTsStr.getD [])] else []) ++
        (if oa.isNone then [invalidTsItem "arrival_timestamp_local".data (arrivalTsStr.getD [])] else [])
      Sum.inl (rowInvalidTsMessage rowNum items)

/-- Flight produced by a row outcome, if any. -/
def rowFlight? (o : Sum Str Flight) : Option Flight :=
  match o with
  | Sum.inl _ => none
  | Sum.inr f => some f

/-- Error produced by a row outcome, if any. -/
def rowError? (o : Sum Str Flight) : Option Str :=
  match o with
  | Sum.inl e => some e
  | Sum.inr _ => none

/-- Outcomes of the independent per-row loop of parseFlightsCsv: each data
line is parsed with the column index of the header, the row number in error
messages being the 1-based line number counting the header as row 1. -/
def rowOutcomes (headerLine : Str) (dataLines : List Str) : List (Sum Str Flight) :=
  dataLines.enum.map
    (fun p => parseRow (buildColumnIndex (headersFromLine headerLine)) (p.1 + 2) p.2)

/-- Body of parseFlightsCsv after the empty-file check: header parsing,
missing-column short circuit, then the independent per-row loop. -/
def parseFlightsAux (headerLine : Str) (dataLines : List Str) : ParseResult :=
  if missingOf (headersFromLine headerLine) ≠ [] then
    { flights := [], errors := [missingColumnsMessage (missingOf (headersFromLine headerLine))],
      totalRows := dataLines.length, successfulRows := 0, failedRows := dataLines.length }
  else
    { flights := (rowOutcomes headerLine dataLines).filterMap rowFlight?,
      errors := (rowOutcomes headerLine dataLines).filterMap rowError?,
      totalRows := dataLines.length,
      successfulRows := (rowOutcomes headerLine dataLines).countP (fun o => o.isRight),
      failedRows := (rowOutcomes headerLine dataLines).countP (fun o => o.isLeft) }

/-- Translation of parseFlightsCsv. -/
def parseFlightsCsv (csv : Str) : ParseResult :=
  match nonBlankLines csv with
  | [] => { flights := [], errors := ["CSV file is empty".data],
            totalRows := 0, successfulRows := 0, failedRows := 0 }
  | headerLine :: dataLines => parseFlightsAux headerLine dataLines

/- ===================== airports parser ===================== -/

/-- Digits of a decimal numeral folded into a natural number. -/
def natOfDigits (ds : List Char) : Nat := ds.foldl (fun acc c => 10 * acc + digitVal c) 0

/-- Exponent suffix of a float literal (after the letter e or E):
optional sign then digits; an empty digit run contributes exponent zero. -/
def parseFloatExp (r : Str) : Int :=
  let sgn : Int := match r with | '-' :: _ => -1 | _ => 1
  let r2 := match r with | '+' :: t => t | '-' :: t => t | _ => r
  let ds := r2.takeWhile Char.isDigit
  if ds = [] then 0 else sgn * (natOfDigits ds : Int)

/-- Rational power of ten with an integer exponent. -/
def tenPow (e : Int) : ℚ :=
  if 0 ≤ e then (10 : ℚ) ^ e.toNat else 1 / (10 : ℚ) ^ (-e).toNat

/-- Model of the JS parseFloat: leading whitespace skipped, optional sign,
decimal digits with optional fraction and exponent, trailing junk ignored;
none when no digit is found (the Infinity literal is not modelled). -/
def parseFloatModel (s : Str) : Option ℚ :=
  let s1 := s.dropWhile Char.isWhitespace
  let sign : ℚ := match s1 with | '-' :: _ => -1 | _ => 1
  let s2 := match s1 with | '+' :: r => r | '-' :: r => r | _ => s1
  let ip := s2.takeWhile Char.isDigit
  let s3 := s2.dropWhile Char.isDigit
  let fp := match s3 with | '.' :: r => r.takeWhile Char.isDigit | _ => []
  let s4 := match s3 with | '.' :: r => r.dropWhile Char.isDigit | _ => s3
  if ip = [] ∧ fp = [] then none
  else
    let mant : ℚ := (natOfDigits ip : ℚ) + (natOfDigits fp : ℚ) / ((10 : ℚ) ^ fp.length)
    let e : Int := match s4 with
      | 'e' :: r => parseFloatExp r
      | 'E' :: r => parseFloatExp r
      | _ => 0
    some (sign * mant * tenPow e)

/-- Translation of parseNumber: null for blank input or when the float parse
yields no number. -/
def parseNumber (value : Str) : Option ℚ :=
  if trimChars value = [] then none else parseFloatModel value

/-- Translation of parseBoolean. -/
def parseBoolean (value : Str) : Bool :=
  decide (toLowerChars value = "yes".data) || decide (value = "1".data) ||
    decide (toLowerChars value = "true".data)

/-- Airport record (first source variant, with a coordinates pair). -/
structure Airport where
  id : Str
  ident : Str
  type : Str
  name : Str
  coordinates : ℚ × ℚ
  elevationFt : Option ℚ
  continent : Str
  isoCountry : Str
  isoRegion : Str
  municipality : Str
  scheduledService : Bool
  icaoCode : Str
  iataCode : Str
  gpsCode : Str
  localCode : Str
deriving DecidableEq

/-- Field extraction of the airports row loop: values[columnIndex[name]]
with optional chaining, trimmed, defaulted to the empty string. -/
def airportField (cidx : MapL Nat) (line : Str) (name : Str) : Str :=
  (getField (parseCsvLine line) (mapGet cidx name)).getD []

/-- Translation of one iteration of the parseAirportsCsv row loop: none when
the row is skipped (blank IATA code or unparseable coordinates), otherwise
the key/value pair stored into the map. -/
def parseAirportRow (cidx : MapL Nat) (line : Str) : Option (Str × Airport) :=
  if airportField cidx line "iata_code".data = [] then none
  else
    match parseNumber (airportField cidx line "latitude_deg".data),
          parseNumber (airportField cidx line "longitude_deg".data) with
    | some latitude, some longitude =>
      some (airportField cidx line "iata_code".data,
        { id := airportField cidx line "id".data,
          ident := airportField cidx line "ident".data,
          type := airportField cidx line "type".data,
          name := airportField cidx line "name".data,
          coordinates := (latitude, longitude),
          elevationFt := parseNumber (airportField cidx line "elevation_ft".data),
          continent := airportField cidx line "continent".data,
          isoCountry := airportField cidx line "iso_country".data,
          isoRegion := airportField cidx line "iso_region".data,
          municipality := airportField cidx line "municipality".data,
          scheduledService := parseBoolean (airportField cidx line "scheduled_service".data),
          icaoCode := airportField cidx line "icao_code".data,
          iataCode := airportField cidx line "iata_code".data,
          gpsCode := airportField cidx line "gps_code".data,
          localCode := airportField cidx line "local_code".data })
    | _, _ => none

/-- Translation of parseAirportsCsv: fold the row loop over the data lines,
storing each produced entry with Map.set semantics. -/
def parseAirportsCsv (csv : Str) : MapL Airport :=
  match nonBlankLines csv with
  | [] => []
  | headerLine :: dataLines =>
    dataLines.foldl
      (fun m line =>
        match parseAirportRow (buildColumnIndex (headersFromLine headerLine)) line with
        | none => m
        | some e => mapSet m e.1 e.2) []

/-- Column index of a CSV text's header. -/
def cidxOf (csv : Str) : MapL Nat := buildColumnIndex (headersOf csv)

/- ===================== visualization builder ===================== -/

/-- FlightVisualizationData record: a flight joined with its two resolved
airports and denormalized timestamps. -/
structure FlightVisualizationData where
  fromAirport : Airport
  toAirport : Airport
  departureTimestamp : Int
  arrivalTimestamp : Int
  flight : Flight
deriving DecidableEq

/-- Translation of createFlightVisualization. -/
def createFlightVisualization (flight : Flight) (fromAirport toAirport : Airport) :
    FlightVisualizationData :=
  { fromAirport := fromAirport, toAirport := toAirport,
    departureTimestamp := flight.departureTimestampLocal,
    arrivalTimestamp := flight.arrivalTimestampLocal, flight := flight }

/-- VisualizationResult record returned by buildFlightVisualizations. -/
structure VisualizationResult where
  visualizations : List FlightVisualizationData
  totalFlightsParsed : Nat
  distinctAirports : List Str
  errors : List Str
  unresolvedAirports : List Str
deriving DecidableEq

/-- Translation of getAirportByCode: direct lookup, then the replacement
fallback when the code is absent and a replacement exists for it. -/
def getAirportByCode (code : Str) (airportsMap : MapL Airport)
    (replacements : MapL Str) : Option Airport :=
  match mapGet airportsMap code with
  | some airport => some airport
  | none =>
    if mapHas replacements code then
      match mapGet replacements code with
      | some newCode => mapGet airportsMap newCode
      | none => none
    else none

/-- Error message for an unresolved departure airport. -/
def departureErrorMessage (flight : Flight) : Str :=
  "Flight ".data ++ flight.airline ++ " ".data ++ flight.flightCode ++
    ": Departure airport \"".data ++ flight.departureAirport ++
    "\" not found in airports database".data

/-- Error message for an unresolved arrival airport. -/
def arrivalErrorMessage (flight : Flight) : Str :=
  "Flight ".data ++ flight.airline ++ " ".data ++ flight.flightCode ++
    ": Arrival airport \"".data ++ flight.arrivalAirport ++
    "\" not found in airports database".data

/-- Accumulated state of the buildFlightVisualizations loop. -/
structure BuildState where
  visualizations : List FlightVisualizationData
  errors : List Str
  unresolvedAirports : List Str
  distinctAirports : List Str

/-- Translation of one iteration of the buildFlightVisualizations loop:
both codes are tracked in distinctAirports, then the departure airport is
resolved (on failure the iteration records one error and continues with the
next flight, never looking at the arrival code), then the arrival airport. -/
def buildStep (airportsMap : MapL Airport) (replacements : MapL Str)
    (s : BuildState) (flight : Flight) : BuildState :=
  let s1 : BuildState :=
    { s with distinctAirports :=
        setAdd (setAdd s.distinctAirports flight.departureAirport) flight.arrivalAirport }
  match getAirportByCode flight.departureAirport airportsMap replacements with
  | none =>
    { s1 with
      unresolvedAirports := setAdd s1.unresolvedAirports flight.departureAirport,
      errors := s1.errors ++ [departureErrorMessage flight] }
  | some fromAirport =>
    match getAirportByCode flight.arrivalAirport airportsMap replacements with
    | none =>
      { s1 with
        unresolvedAirports := setAdd s1.unresolvedAirports flight.arrivalAirport,
        errors := s1.errors ++ [arrivalErrorMessage flight] }
    | some toAirport =>
      { s1 with visualizations :=
          s1.visualizations ++ [createFlightVisualization flight fromAirport toAirport] }

/-- Translation of buildFlightVisualizations. -/
def buildFlightVisualizations (flights : List Flight) (airportsMap : MapL Airport)
    (replacements : MapL Str) : VisualizationResult :=
  let s := flights.foldl (buildStep airportsMap replacements)
    { visualizations := [], errors := [], unresolvedAirports := [], distinctAirports := [] }
  { visualizations := s.visualizations, totalFlightsParsed := flights.length,
    distinctAirports := s.distinctAirports, errors := s.errors,
    unresolvedAirports := s.unresolvedAirports }

/-- Visualization produced by one flight, when both endpoints resolve. -/
def vizOf (airportsMap : MapL Airport) (replacements : MapL Str) (flight : Flight) :
    Option FlightVisualizationData :=
  match getAirportByCode flight.departureAirport airportsMap replacements with
  | none => none
  | some fromAirport =>
    match getAirportByCode flight.arrivalAirport airportsMap replacements with
    | none => none
    | some toAirport => some (createFlightVisualization flight fromAirport toAirport)

/-- Specification-side resolution predicate, following the claim's words: a
code resolves when it is a key of the airport table, or it is absent but the
replacement table maps it to a code that is a key of the airport table. -/
def resolvesSpec (code : Str) (airportsMap : MapL Airport) (replacements : MapL Str) : Prop :=
  mapGet airportsMap code ≠ none ∨
  (mapGet airportsMap code = none ∧
    ∃ newCode, mapGet replacements code = some newCode ∧ mapGet airportsMap newCode ≠ none)

/-- Concrete airport for witnesses: Helsinki. -/
def exAirportHEL : Airport :=
  { id := "1".data, ident := "EFHK".data, type := "large_airport".data,
    name := "Helsinki Vantaa".data, coordinates := (60, 24),
    elevationFt := none, continent := "EU".data, isoCountry := "FI".data,
    isoRegion := "FI-18".data, municipality := "Helsinki".data,
    scheduledService := true, icaoCode := "EFHK".data, iataCode := "HEL".data,
    gpsCode := "EFHK".data, localCode := [] }

/-- Concrete airport for witnesses: New York JFK. -/
def exAirportJFK : Airport :=
  { id := "2".data, ident := "KJFK".data, type := "large_airport".data,
    name := "John F Kennedy".data, coordinates := (40, -73),
    elevationFt := none, continent := "NA".data, isoCountry := "US".data,
    isoRegion := "US-NY".data, municipality := "New York".data,
    scheduledService := true, icaoCode := "KJFK".data, iataCode := "JFK".data,
    gpsCode := "KJFK".data, localCode := [] }

/-- Concrete airport table for witnesses. -/
def exAirportsMap : MapL Airport :=
  [("HEL".data, exAirportHEL), ("JFK".data, exAirportJFK)]

/-- Concrete flight HEL to JFK for witnesses. -/
def exFlight : Flight :=
  { airline := "Finnair".data, flightCode := "AY123".data,
    departureAirport := "HEL".data, arrivalAirport := "JFK".data,
    departureTimestampLocal := 0, arrivalTimestampLocal := 3600 }

/-- Concrete flight with unresolvable endpoints for witnesses. -/
def exFlightBad : Flight :=
  { airline := "Finnair".data, flightCode := "AY999".data,
    departureAirport := "XXX".data, arrivalAirport := "YYY".data,
    departureTimestampLocal := 0, arrivalTimestampLocal := 3600 }

/- ===================== map rendering ===================== -/

/-- Default color used when the maximum frequency is zero. -/
def defaultBlue : Str := "#667eea".data

/-- Blue bucket color. -/
def colorBlue : Str := "#3b82f6".data

/-- Cyan bucket color. -/
def colorCyan : Str := "#06b6d4".data

/-- Green bucket color. -/
def colorGreen : Str := "#10b981".data

/-- Orange bucket color. -/
def colorOrange : Str := "#f59e0b".data

/-- Red bucket color. -/
def colorRed : Str := "#ef4444".data

/-- Translation of getFrequencyColor, with JS numbers modelled as rationals. -/
def getFrequencyColor (frequency maxFrequency : ℚ) : Str :=
  if maxFrequency = 0 then defaultBlue
  else
    if frequency / maxFrequency ≤ 0.15 then colorBlue
    else if frequency / maxFrequency ≤ 0.3 then colorCyan
    else if frequency / maxFrequency ≤ 0.5 then colorGreen
    else if frequency / maxFrequency ≤ 0.75 then colorOrange
    else colorRed

/-- Lexicographic order on character lists, as the default JS Array sort
comparator orders strings (by code unit). -/
def strLt : Str → Str → Bool
  | [], [] => false
  | [], _ :: _ => true
  | _ :: _, [] => false
  | a :: as, b :: bs => if a < b then true else if b < a then false else strLt as bs

/-- The sorted two-element array produced by the source's route-key sort. -/
def sortPairJS (a b : Str) : Str × Str := if strLt b a then (b, a) else (a, b)

/-- Canonical route key: the two IATA codes sorted and joined with a dash. -/
def routeKey (v : FlightVisualizationData) : Str :=
  (sortPairJS v.fromAirport.iataCode v.toAirport.iataCode).1 ++ "-".data ++
    (sortPairJS v.fromAirport.iataCode v.toAirport.iataCode).2

/-- One drawn route group: the first-encountered visualization of the key,
and the outbound and return flight lists of its popup content. -/
structure RouteDraw where
  rep : FlightVisualizationData
  outbound : List FlightVisualizationData
  ret : List FlightVisualizationData
deriving DecidableEq

/-- Outbound filter of the popup content: same direction as the
first-encountered visualization. -/
def outboundFilter (v w : FlightVisualizationData) : Bool :=
  decide (w.fromAirport.iataCode = v.fromAirport.iataCode) &&
  decide (w.toAirport.iataCode = v.toAirport.iataCode)

/-- Return filter of the popup content: opposite direction. -/
def returnFilter (v w : FlightVisualizationData) : Bool :=
  decide (w.fromAirport.iataCode = v.toAirport.iataCode) &&
  decide (w.toAirport.iataCode = v.fromAirport.iataCode)

/-- Iteration of the drawing loop over the visualizations with the
drawnRoutes seen-set: the first visualization of each key produces the drawn
geometry group, later ones with the same key are skipped; the group's popup
lists all flights of the key, split by direction against the first one. -/
def drawnRoutesAux (all : List FlightVisualizationData) :
    List FlightVisualizationData → List Str → List RouteDraw
  | [], _ => []
  | v :: vs, seen =>
    if routeKey v ∈ seen then drawnRoutesAux all vs seen
    else
      { rep := v,
        outbound := (all.filter (fun w => decide (routeKey w = routeKey v))).filter
          (outboundFilter v),
        ret := (all.filter (fun w => decide (routeKey w = routeKey v))).filter
          (returnFilter v) }
        :: drawnRoutesAux all vs (setAdd seen (routeKey v))

/-- The drawn route groups of the rendering pass, in drawing order. -/
def drawnRoutes (vizs : List FlightVisualizationData) : List RouteDraw :=
  drawnRoutesAux vizs vizs []

/-- All IATA codes of the visualization set are free of the dash character
used by the route-key join (true of real three-letter IATA codes). -/
def dashFreeVizs (vizs : List FlightVisualizationData) : Prop :=
  ∀ v ∈ vizs, ('-' ∉ v.fromAirport.iataCode ∧ '-' ∉ v.toAirport.iataCode)

/-- Concrete flight JFK to HEL for witnesses. -/
def exFlightBack : Flight :=
  { airline := "Finnair".data, flightCode := "AY124".data,
    departureAirport := "JFK".data, arrivalAirport := "HEL".data,
    departureTimestampLocal := 7200, arrivalTimestampLocal := 10800 }

/-- Concrete bidirectional visualization pair for witnesses. -/
def exVizAB : FlightVisualizationData :=
  createFlightVisualization exFlight exAirportHEL exAirportJFK

/-- Concrete return-direction visualization for witnesses. -/
def exVizBA : FlightVisualizationData :=
  createFlightVisualization exFlightBack exAirportJFK exAirportHEL

/-- Concrete visualization set with both directions of one route. -/
def exVizs : List FlightVisualizationData := [exVizAB, exVizBA]

/- ===================== scene model and playback ===================== -/

/-- Geographic point (latitude, longitude). -/
abbrev PointM := ℚ × ℚ

/-- Marker abstraction: the data createAirportMarker depends on besides the
zoom-derived size, which is the same constant on both rendering paths.
Popup bindings and transient CSS classes are not modelled; the abstraction
is a function of the real drawn scene, so an inequality of abstract scenes
witnesses an inequality of real scenes. -/
structure MarkerM where
  airport : Airport
  color : Str
deriving DecidableEq

/-- Route segment abstraction: polyline points, color, weight. -/
structure SegM where
  points : List PointM
  color : Str
  weight : ℚ
deriving DecidableEq

/-- Scene state: the airport marker registry, the flight line registry and
the moving plane marker of an in-progress animation. -/
structure Scene where
  markers : List MarkerM
  lines : List SegM
  plane : Option PointM
deriving DecidableEq

/-- The empty scene (fresh map). -/
def emptyScene : Scene := { markers := [], lines := [], plane := none }

/-- Integer power of 1.4 (the zoom scale factor), as Math.pow on an integer
exponent. -/
def pow14 : Int → ℚ
  | Int.ofNat n => (14 / 10 : ℚ) ^ n
  | Int.negSucc n => (10 / 14 : ℚ) ^ (n + 1)

/-- Translation of getLineWeight: exponential in zoom, clamped to [0.5, 8]. -/
def getLineWeight (zoom : Int) : ℚ :=
  max (1 / 2) (min 8 (2 * pow14 (zoom - 4)))

/-- Hex digit value. -/
def hexVal (c : Char) : Nat :=
  if '0' ≤ c ∧ c ≤ '9' then c.toNat - '0'.toNat
  else if 'a' ≤ c ∧ c ≤ 'f' then 10 + (c.toNat - 'a'.toNat)
  else if 'A' ≤ c ∧ c ≤ 'F' then 10 + (c.toNat - 'A'.toNat)
  else 0

/-- Hex digit test. -/
def isHexDigit (c : Char) : Bool :=
  c.isDigit || (decide ('a' ≤ c) && decide (c ≤ 'f')) || (decide ('A' ≤ c) && decide (c ≤ 'F'))

/-- Translation of hexToRgb: an optional hash then six hex digits, falling
back to the default rgb(102, 126, 234). -/
def hexToRgb (hex : Str) : Nat × Nat × Nat :=
  match hex with
  | ['#', a, b, c, d, e, f] =>
    if [a, b, c, d, e, f].all isHexDigit then
      (16 * hexVal a + hexVal b, 16 * hexVal c + hexVal d, 16 * hexVal e + hexVal f)
    else (102, 126, 234)
  | [a, b, c, d, e, f] =>
    if [a, b, c, d, e, f].all isHexDigit then
      (16 * hexVal a + hexVal b, 16 * hexVal c + hexVal d, 16 * hexVal e + hexVal f)
    else (102, 126, 234)
  | _ => (102, 126, 234)

/-- Math.round: round half toward positive infinity. -/
def jsRound (q : ℚ) : Int := Int.floor (q + 1 / 2)

/-- Decimal rendering of an integer. -/
def intToStr (i : Int) : Str :=
  if 0 ≤ i then (Nat.repr i.toNat).data else '-' :: (Nat.repr (-i).toNat).data

/-- Translation of interpolateColor: componentwise linear interpolation in
RGB space, rendered as an rgb(r, g, b) string. -/
def interpolateColor (color1 color2 : Str) (t : ℚ) : Str :=
  let c1 := hexToRgb color1
  let c2 := hexToRgb color2
  let r := jsRound ((c1.1 : ℚ) + ((c2.1 : ℚ) - (c1.1 : ℚ)) * t)
  let g := jsRound ((c1.2.1 : ℚ) + ((c2.2.1 : ℚ) - (c1.2.1 : ℚ)) * t)
  let b := jsRound ((c1.2.2 : ℚ) + ((c2.2.2 : ℚ) - (c1.2.2 : ℚ)) * t)
  "rgb(".data ++ intToStr r ++ ", ".data ++ intToStr g ++ ", ".data ++ intToStr b ++ ")".data

/-- One visualization's contribution to the airport frequency counters:
each flight increments both endpoint counters. -/
def freqStep (m : MapL Nat) (v : FlightVisualizationData) : MapL Nat :=
  let m1 := mapSet m v.fromAirport.iataCode ((mapGet m v.fromAirport.iataCode).getD 0 + 1)
  mapSet m1 v.toAirport.iataCode ((mapGet m1 v.toAirport.iataCode).getD 0 + 1)

/-- The airport frequency table of a visualization set (identical code in
visualizeFlights and startAnimation). -/
def countFrequencies (vizs : List FlightVisualizationData) : MapL Nat :=
  vizs.foldl freqStep []

/-- Math.max over the frequency values (the empty case, where JS yields
minus infinity, is only reached with no visualizations and is then unused). -/
def maxFreqOf (m : MapL Nat) : Nat := (m.map Prod.snd).foldl max 0

/-- Frequency color of one airport code (frequency defaulted to 0). -/
def colorOfCode (freq : MapL Nat) (maxF : Nat) (code : Str) : Str :=
  getFrequencyColor ((mapGet freq code).getD 0 : ℚ) (maxF : ℚ)

/-- The unique-airport map collected by visualizeFlights, in insertion order. -/
def airportsMapOf (vizs : List FlightVisualizationData) : MapL Airport :=
  vizs.foldl
    (fun m v => mapSet (mapSet m v.fromAirport.iataCode v.fromAirport)
      v.toAirport.iataCode v.toAirport) []

/-- JS Array.prototype.slice with clamping. -/
def jsSlice (l : List PointM) (start stop : Nat) : List PointM :=
  (l.drop start).take (stop - start)

/-- The gradient segments of one drawn route: the geodesic path is cut into
10 runs of floor(length/10) points (remainder folded into the last run),
runs of fewer than 2 points are skipped, and each segment is colored by
interpolation at ratio i/9 with the current line weight. -/
def routeSegments (geo : PointM → PointM → List PointM) (zoom : Int)
    (fromC toC : PointM) (fromColor toColor : Str) : List SegM :=
  let pathPoints := geo fromC toC
  let segmentSize := pathPoints.length / 10
  (List.range 10).filterMap (fun i =>
    let startIdx := i * segmentSize
    let endIdx := if i = 9 then pathPoints.length else (i + 1) * segmentSize
    let segmentPoints := jsSlice pathPoints startIdx (endIdx + 1)
    if segmentPoints.length < 2 then none
    else some { points := segmentPoints,
                color := interpolateColor fromColor toColor ((i : ℚ) / 9),
                weight := getLineWeight zoom })

/-- Translation of visualizeFlights on the scene abstraction: clear markers
and lines, return early on an empty set, otherwise draw one segment group
per deduplicated route (in first-encounter order) and one marker per unique
airport (in insertion order), colored by frequency.  The moving plane
marker is not touched by this function. -/
def visualizeFlightsModel (geo : PointM → PointM → List PointM) (zoom : Int)
    (vizs : List FlightVisualizationData) (s : Scene) : Scene :=
  if vizs.isEmpty then { markers := [], lines := [], plane := s.plane }
  else
    { markers := (airportsMapOf vizs).map (fun p =>
        { airport := p.2,
          color := colorOfCode (countFrequencies vizs) (maxFreqOf (countFrequencies vizs)) p.2.iataCode }),
      lines := (drawnRoutes vizs).flatMap (fun d =>
        routeSegments geo zoom d.rep.fromAirport.coordinates d.rep.toAirport.coordinates
          (colorOfCode (countFrequencies vizs) (maxFreqOf (countFrequencies vizs)) d.rep.fromAirport.iataCode)
          (colorOfCode (countFrequencies vizs) (maxFreqOf (countFrequencies vizs)) d.rep.toAirport.iataCode)),
      plane := s.plane }

/-- Translation of addAirportMarker on the scene abstraction. -/
def addAirportMarkerModel (s : Scene) (airport : Airport) (color : Str) : Scene :=
  { s with markers := s.markers ++ [{ airport := airport, color := color }] }

/-- Stable insertion of a visualization into a departure-time-sorted list,
after any equal departure times (stability of the ES Array sort). -/
def insertByDep (v : FlightVisualizationData) :
    List FlightVisualizationData → List FlightVisualizationData
  | [] => [v]
  | w :: ws =>
    if w.departureTimestamp ≤ v.departureTimestamp then w :: insertByDep v ws
    else v :: w :: ws

/-- The departure-time-ascending stable sort of startAnimation. -/
def sortByDeparture (vizs : List FlightVisualizationData) :
    List FlightVisualizationData :=
  vizs.foldl (fun acc v => insertByDep v acc) []

/-- The segment loop of animateFlightRoute, with the cancellation request
scheduled at a given sleep: fuel counts the remaining sleeps before the stop
request arrives.  Each drawn segment adds a line and moves the plane marker,
then sleeps.  When the stop request arrives during that sleep, stopAnimation
runs synchronously: it sets the abort flag, removes the plane marker and
redraws the full static scene; the resumed coroutine then exits the segment
loop at its next abort check without further drawing, and the second
component none reports the cancellation to the flight loop. -/
def animSegsGo (geo : PointM → PointM → List PointM) (zoom : Int)
    (vizs : List FlightVisualizationData) (pathPoints : List PointM)
    (segmentSize : Nat) (fromColor toColor : Str) :
    List Nat → Scene → Nat → Scene × Option Nat
  | [], s, fuel => ({ s with plane := none }, some fuel)
  | i :: is, s, fuel =>
    let startIdx := i * segmentSize
    let endIdx := if i = 9 then pathPoints.length else (i + 1) * segmentSize
    let segmentPoints := jsSlice pathPoints startIdx (endIdx + 1)
    if segmentPoints.length < 2 then
      animSegsGo geo zoom vizs pathPoints segmentSize fromColor toColor is s fuel
    else
      let seg : SegM := { points := segmentPoints,
                          color := interpolateColor fromColor toColor ((i : ℚ) / 9),
                          weight := getLineWeight zoom }
      let s2 : Scene := { s with lines := s.lines ++ [seg],
                                 plane := some (segmentPoints.getLastD (0, 0)) }
      if fuel = 0 then
        (visualizeFlightsModel geo zoom vizs { s2 with plane := none }, none)
      else
        animSegsGo geo zoom vizs pathPoints segmentSize fromColor toColor is s2 (fuel - 1)

/-- Translation of animateFlightRoute under the scheduled cancellation. -/
def animateFlightRouteModel (geo : PointM → PointM → List PointM) (zoom : Int)
    (vizs : List FlightVisualizationData) (v : FlightVisualizationData)
    (fromColor toColor : Str) (s : Scene) (fuel : Nat) : Scene × Option Nat :=
  let pathPoints := geo v.fromAirport.coordinates v.toAirport.coordinates
  animSegsGo geo zoom vizs pathPoints (pathPoints.length / 10) fromColor toColor
    (List.range 10) s fuel

/-- The flight loop of startAnimation under the scheduled cancellation.
Before each flight the departure marker is added when not yet shown (a
highlight of an existing marker leaves the scene abstraction unchanged);
after the awaited route animation returns, the arrival block runs — also
when the animation was cancelled during the await, because the source
checks the abort flag only at the top of the loop — and then the loop
either continues or breaks at that abort check. -/
def playLoop (geo : PointM → PointM → List PointM) (zoom : Int)
    (vizs : List FlightVisualizationData) (freq : MapL Nat) (maxF : Nat) :
    List FlightVisualizationData → Scene → List Str → Nat → Scene
  | [], s, _, _ => s
  | v :: rest, s, shown, fuel =>
    let fromColor := colorOfCode freq maxF v.fromAirport.iataCode
    let toColor := colorOfCode freq maxF v.toAirport.iataCode
    let s1 := if v.fromAirport.iataCode ∈ shown then s
              else addAirportMarkerModel s v.fromAirport fromColor
    let shown1 := if v.fromAirport.iataCode ∈ shown then shown
                  else setAdd shown v.fromAirport.iataCode
    match animateFlightRouteModel geo zoom vizs v fromColor toColor s1 fuel with
    | (s2, none) =>
      if v.toAirport.iataCode ∈ shown1 then s2
      else addAirportMarkerModel s2 v.toAirport toColor
    | (s2, some fuel2) =>
      let s3 := if v.toAirport.iataCode ∈ shown1 then s2
                else addAirportMarkerModel s2 v.toAirport toColor
      let shown2 := if v.toAirport.iataCode ∈ shown1 then shown1
                    else setAdd shown1 v.toAirport.iataCode
      playLoop geo zoom vizs freq maxF rest s3 shown2 fuel2

/-- A playback started on a fresh scene over the given dataset, with the
stop request arriving during the n-th sleep of the animation (when the
animation finishes in fewer sleeps, the completed scene is returned). -/
def runCancelled (geo : PointM → PointM → List PointM) (zoom : Int)
    (vizs : List FlightVisualizationData) (n : Nat) : Scene :=
  playLoop geo zoom vizs (countFrequencies vizs) (maxFreqOf (countFrequencies vizs))
    (sortByDeparture vizs) emptyScene [] n

/-- Straight-line path model of the geodesic library call. -/
def geoLine : PointM → PointM → List PointM := fun a b => [a, b]

/-- Concrete flight CSV whose header lacks the flight_code column. -/
def exMissingCsv : Str :=
  "airline,departure_airport,arrival_airport,departure_timestamp_local,arrival_timestamp_local\na,b,c,d,e".data

/-- Concrete airports CSV with a duplicate IATA code, a blank-code row and a
row with an unparseable latitude. -/
def exAirportsCsv : Str :=
  "ident,iata_code,name,latitude_deg,longitude_deg\nx1,AAA,First,1,2\nx2,,NoCode,3,4\nx3,BBB,Bad,notanumber,5\nx4,AAA,Second,6,7".data

/-- Concrete airports CSV whose header lacks the iata_code column. -/
def exNoIataCsv : Str :=
  "ident,name,latitude_deg,longitude_deg\nx1,First,1,2".data

/-- The key/value pairs produced by the non-skipped data rows, in row order. -/
def airportEntries (csv : Str) : List (Str × Airport) :=
  (dataLinesOf csv).filterMap (parseAirportRow (cidxOf csv))

/-- Entries of a list of key/value pairs applied to a map with Map.set
semantics, left to right. -/
def applyEntries {α : Type} (m : MapL α) (es : List (Str × α)) : MapL α :=
  es.foldl (fun acc e => mapSet acc e.1 e.2) m

/- ===================== helper lemmas ===================== -/

theorem not_mem_of_mapHas_false {α : Type} {m : MapL α} {k : Str}
    (h : mapHas m k = false) : ∀ p ∈ m, p.1 ≠ k := by
  intro p hp
  simp only [mapHas, List.any_eq_false, decide_eq_true_eq] at h
  exact h p hp

theorem find?_key_of_mapHas_false {α : Type} {m : MapL α} {k : Str}
    (h : mapHas m k = false) : m.find? (fun p => decide (p.1 = k)) = none := by
  rw [List.find?_eq_none]
  intro p hp
  simpa using not_mem_of_mapHas_false h p hp

theorem find?_map_set_of_mapHas {α : Type} (v : α) (k : Str) (m : MapL α)
    (h : mapHas m k = true) :
    (m.map (fun p => if p.1 = k then (k, v) else p)).find? (fun p => decide (p.1 = k))
      = some (k, v) := by
  induction m with
  | nil => simp [mapHas] at h
  | cons p t ih =>
    by_cases hp : p.1 = k
    · simp [List.find?, hp]
    · have ht : mapHas t k = true := by
        simp only [mapHas, List.any_cons, decide_eq_true_eq, hp, false_or] at h ⊢
        exact h
      have hd : decide (p.1 = k) = false := decide_eq_false hp
      simp only [List.map_cons, List.find?, if_neg hp, hd]
      exact ih ht

theorem mapGet_mapSet_self {α : Type} (m : MapL α) (k : Str) (v : α) :
    mapGet (mapSet m k v) k = some v := by
  unfold mapSet mapGet
  by_cases h : mapHas m k
  · rw [if_pos h, find?_map_set_of_mapHas v k m h]
    rfl
  · have hfalse : mapHas m k = false := by simpa using h
    rw [if_neg h, List.find?_append, find?_key_of_mapHas_false hfalse]
    simp [List.find?]

theorem find?_map_set_ne {α : Type} (v : α) (k k' : Str) (m : MapL α) (hne : k' ≠ k) :
    (m.map (fun p => if p.1 = k then (k, v) else p)).find? (fun p => decide (p.1 = k'))
      = m.find? (fun p => decide (p.1 = k')) := by
  induction m with
  | nil => rfl
  | cons p t ih =>
    by_cases hp : p.1 = k
    · have h1 : decide ((k, v).1 = k') = false :=
        decide_eq_false (fun hh => hne hh.symm)
      have h2 : decide (p.1 = k') = false :=
        decide_eq_false (fun hh => hne (hh.symm.trans hp))
      simp only [List.map_cons, List.find?, if_pos hp, h1, h2]
      exact ih
    · simp only [List.map_cons, List.find?, if_neg hp]
      cases hq : decide (p.1 = k') with
      | true => rfl
      | false => exact ih

theorem mapGet_mapSet_ne {α : Type} (m : MapL α) (k k' : Str) (v : α) (hne : k' ≠ k) :
    mapGet (mapSet m k v) k' = mapGet m k' := by
  unfold mapSet mapGet
  by_cases h : mapHas m k
  · rw [if_pos h, find?_map_set_ne v k k' m hne]
  · rw [if_neg h, List.find?_append]
    have hone : List.find? (fun p => decide (p.1 = k')) [(k, v)] = none := by
      have h1 : decide ((k, v).1 = k') = false :=
        decide_eq_false (fun hh => hne hh.symm)
      simp only [List.find?, h1]
    rw [hone]
    cases List.find? (fun p => decide (p.1 = k')) m <;> rfl

theorem keysOf_mapSet_nodup {α : Type} (m : MapL α) (k : Str) (v : α)
    (h : (keysOf m).Nodup) : (keysOf (mapSet m k v)).Nodup := by
  unfold mapSet keysOf
  by_cases hh : mapHas m k
  · rw [if_pos hh]
    have heq : (m.map (fun p => if p.1 = k then (k, v) else p)).map Prod.fst
        = m.map Prod.fst := by
      rw [List.map_map]
      apply List.map_congr_left
      intro p _
      by_cases hp : p.1 = k
      · simp [hp]
      · simp [hp]
    rw [heq]
    exact h
  · have hfalse : mapHas m k = false := by simpa using hh
    rw [if_neg hh, List.map_append]
    have hk : k ∉ m.map Prod.fst := by
      intro hmem
      rcases List.mem_map.mp hmem with ⟨p, hp, hpk⟩
      exact not_mem_of_mapHas_false hfalse p hp hpk
    rw [List.nodup_append]
    refine ⟨h, List.nodup_singleton k, ?_⟩
    intro a ha hb
    have hb2 : a = k := by simpa using hb
    subst hb2
    exact hk ha

theorem keysOf_applyEntries_nodup {α : Type} (es : List (Str × α)) (m : MapL α)
    (h : (keysOf m).Nodup) : (keysOf (applyEntries m es)).Nodup := by
  induction es generalizing m with
  | nil => exact h
  | cons e t ih => exact ih (mapSet m e.1 e.2) (keysOf_mapSet_nodup m e.1 e.2 h)

theorem mapGet_applyEntries {α : Type} (es : List (Str × α)) (m : MapL α) (k : Str) :
    mapGet (applyEntries m es) k =
      match es.reverse.find? (fun e => decide (e.1 = k)) with
      | some e => some e.2
      | none => mapGet m k := by
  induction es generalizing m with
  | nil => rfl
  | cons e t ih =>
    have step : applyEntries m (e :: t) = applyEntries (mapSet m e.1 e.2) t := rfl
    rw [step, ih]
    have hrev : (e :: t).reverse = t.reverse ++ [e] := by simp
    rw [hrev, List.find?_append]
    cases hf : t.reverse.find? (fun e => decide (e.1 = k)) with
    | some x => rfl
    | none =>
      by_cases hek : e.1 = k
      · have : List.find? (fun e => decide (e.1 = k)) [e] = some e := by
          simp [List.find?, hek]
        rw [this]
        subst hek
        simp [mapGet_mapSet_self]
      · have : List.find? (fun e => decide (e.1 = k)) [e] = none := by
          simp [List.find?, hek]
        rw [this]
        simp [mapGet_mapSet_ne m e.1 k e.2 (fun hh => hek hh.symm)]

theorem foldl_rows_eq_applyEntries (cidx : MapL Nat) (lines : List Str) (m : MapL Airport) :
    lines.foldl
      (fun acc line =>
        match parseAirportRow cidx line with
        | none => acc
        | some e => mapSet acc e.1 e.2) m
    = applyEntries m (lines.filterMap (parseAirportRow cidx)) := by
  induction lines generalizing m with
  | nil => rfl
  | cons l t ih =>
    cases hr : parseAirportRow cidx l with
    | none => simp only [List.foldl_cons, List.filterMap_cons, hr]; exact ih m
    | some e => simp only [List.foldl_cons, List.filterMap_cons, hr]; exact ih (mapSet m e.1 e.2)

theorem parseAirportsCsv_cons (csv hd : Str) (tl : List Str)
    (h : nonBlankLines csv = hd :: tl) :
    parseAirportsCsv csv =
      tl.foldl
        (fun m line =>
          match parseAirportRow (buildColumnIndex (headersFromLine hd)) line with
          | none => m
          | some e => mapSet m e.1 e.2) [] := by
  unfold parseAirportsCsv
  rw [h]

theorem parseAirportsCsv_eq_applyEntries (csv : Str) :
    parseAirportsCsv csv = applyEntries [] (airportEntries csv) := by
  cases h : nonBlankLines csv with
  | nil =>
    have h0 : parseAirportsCsv csv = [] := by
      unfold parseAirportsCsv
      rw [h]
    rw [h0]
    simp [airportEntries, dataLinesOf, h, applyEntries]
  | cons hd tl =>
    have hc : cidxOf csv = buildColumnIndex (headersFromLine hd) := by
      simp [cidxOf, headersOf, h]
    have hdl : dataLinesOf csv = tl := by simp [dataLinesOf, h]
    rw [parseAirportsCsv_cons csv hd tl h, foldl_rows_eq_applyEntries]
    unfold airportEntries
    rw [hc, hdl]

theorem countP_isLeft_add_isRight {α β : Type} (l : List (Sum α β)) :
    l.countP (fun o => o.isLeft) + l.countP (fun o => o.isRight) = l.length := by
  induction l with
  | nil => simp
  | cons h t ih => cases h <;> simp [List.countP_cons] <;> omega

theorem mem_infix_joinSep (sep : Str) (c : Str) (l : List Str) (hc : c ∈ l) :
    c <:+: joinSep sep l := by
  induction l with
  | nil => cases hc
  | cons x xs ih =>
    cases xs with
    | nil =>
      rcases List.mem_cons.mp hc with rfl | h
      · exact List.infix_rfl
      · cases h
    | cons y ys =>
      have hj : joinSep sep (x :: y :: ys) = x ++ (sep ++ joinSep sep (y :: ys)) := by
        simp [joinSep]
      rcases List.mem_cons.mp hc with rfl | h
      · rw [hj]
        exact (List.prefix_append c (sep ++ joinSep sep (y :: ys))).isInfix
      · refine (ih h).trans ?_
        rw [hj]
        exact ((List.suffix_append sep (joinSep sep (y :: ys))).trans
          (List.suffix_append x (sep ++ joinSep sep (y :: ys)))).isInfix

theorem mem_infix_missingColumnsMessage (c : Str) (missing : List Str)
    (hc : c ∈ missing) : c <:+: missingColumnsMessage missing := by
  unfold missingColumnsMessage
  exact (mem_infix_joinSep _ _ _ hc).trans
    (List.suffix_append "Missing required columns: ".data _).isInfix

theorem parseFlightsCsv_nil (csv : Str) (h : nonBlankLines csv = []) :
    parseFlightsCsv csv =
      { flights := [], errors := ["CSV file is empty".data],
        totalRows := 0, successfulRows := 0, failedRows := 0 } := by
  unfold parseFlightsCsv
  rw [h]

theorem parseFlightsCsv_cons (csv hd : Str) (tl : List Str)
    (h : nonBlankLines csv = hd :: tl) :
    parseFlightsCsv csv = parseFlightsAux hd tl := by
  unfold parseFlightsCsv
  rw [h]

theorem parseFlightsAux_shortCircuit (headerLine : Str) (dataLines : List Str)
    (hm : missingOf (headersFromLine headerLine) ≠ []) :
    parseFlightsAux headerLine dataLines =
      { flights := [], errors := [missingColumnsMessage (missingOf (headersFromLine headerLine))],
        totalRows := dataLines.length, successfulRows := 0, failedRows := dataLines.length } := by
  unfold parseFlightsAux
  rw [if_pos hm]

theorem parseFlightsAux_ok (headerLine : Str) (dataLines : List Str)
    (hm : missingOf (headersFromLine headerLine) = []) :
    parseFlightsAux headerLine dataLines =
      { flights := (rowOutcomes headerLine dataLines).filterMap rowFlight?,
        errors := (rowOutcomes headerLine dataLines).filterMap rowError?,
        totalRows := dataLines.length,
        successfulRows := (rowOutcomes headerLine dataLines).countP (fun o => o.isRight),
        failedRows := (rowOutcomes headerLine dataLines).countP (fun o => o.isLeft) } := by
  unfold parseFlightsAux
  rw [if_neg (by simp [hm])]

/- ===================== claims C1, C6, C7 ===================== -/

/-- Claim C1: for every flight CSV, totalRows equals the number of non-blank
data lines (the lines after the header), successfulRows plus failedRows
equals totalRows, and in the missing-required-columns short circuit the
successful count is zero and every data row is counted as failed. -/
theorem claim1_parseFlightsCsv_counts (csv : Str) :
    (parseFlightsCsv csv).totalRows = (dataLinesOf csv).length ∧
    (parseFlightsCsv csv).successfulRows + (parseFlightsCsv csv).failedRows
      = (parseFlightsCsv csv).totalRows ∧
    (missingRequired csv ≠ [] →
      (parseFlightsCsv csv).successfulRows = 0 ∧
      (parseFlightsCsv csv).failedRows = (parseFlightsCsv csv).totalRows) := by
  cases h : nonBlankLines csv with
  | nil =>
    rw [parseFlightsCsv_nil csv h]
    simp [dataLinesOf, h]
  | cons hd tl =>
    rw [parseFlightsCsv_cons csv hd tl h]
    have hdl : (dataLinesOf csv).length = tl.length := by simp [dataLinesOf, h]
    have hmr : missingRequired csv = missingOf (headersFromLine hd) := by
      simp [missingRequired, headersOf, h]
    by_cases hm : missingOf (headersFromLine hd) = []
    · rw [parseFlightsAux_ok hd tl hm]
      dsimp only
      refine ⟨hdl.symm, ?_, fun hne => absurd hm (by rw [hmr] at hne; exact hne)⟩
      have hc := countP_isLeft_add_isRight (rowOutcomes hd tl)
      have hl : (rowOutcomes hd tl).length = tl.length := by
        simp [rowOutcomes]
      omega
    · rw [parseFlightsAux_shortCircuit hd tl hm]
      dsimp only
      exact ⟨hdl.symm, by simp, fun _ => ⟨rfl, rfl⟩⟩

/-- Witness for claim C1 at a concrete missing-column CSV. -/
theorem claim1_witness :
    (parseFlightsCsv exMissingCsv).successfulRows = 0 ∧
    (parseFlightsCsv exMissingCsv).failedRows = (parseFlightsCsv exMissingCsv).totalRows :=
  (claim1_parseFlightsCsv_counts exMissingCsv).2.2 (by decide)

/-- Claim C6: the two sample strings in the two supported layouts parse to
the identical absolute instant, and that parse succeeds. -/
theorem claim6_timestamp_roundtrip :
    parseTimestamp "2019-07-28 20:20:00".data = parseTimestamp "28.07.2019 20:20:00".data ∧
    (parseTimestamp "2019-07-28 20:20:00".data).isSome = true := by
  constructor <;> decide

/-- Claim C7: when the header of a non-empty flight CSV lacks at least one
required column, parsing short-circuits: no flight is parsed, exactly one
error message is produced and it names every missing column, and every data
row is counted as failed. -/
theorem claim7_missing_columns (csv : Str)
    (hne : nonBlankLines csv ≠ [])
    (hmiss : missingRequired csv ≠ []) :
    (parseFlightsCsv csv).flights = [] ∧
    (parseFlightsCsv csv).errors = [missingColumnsMessage (missingRequired csv)] ∧
    (parseFlightsCsv csv).successfulRows = 0 ∧
    (parseFlightsCsv csv).failedRows = (parseFlightsCsv csv).totalRows ∧
    (parseFlightsCsv csv).totalRows = (dataLinesOf csv).length ∧
    (∀ c ∈ missingRequired csv, c <:+: missingColumnsMessage (missingRequired csv)) := by
  cases h : nonBlankLines csv with
  | nil => exact absurd h hne
  | cons hd tl =>
    rw [parseFlightsCsv_cons csv hd tl h]
    have hdl : (dataLinesOf csv).length = tl.length := by simp [dataLinesOf, h]
    have hmr : missingRequired csv = missingOf (headersFromLine hd) := by
      simp [missingRequired, headersOf, h]
    rw [hmr] at hmiss ⊢
    rw [parseFlightsAux_shortCircuit hd tl hmiss]
    dsimp only
    exact ⟨rfl, rfl, rfl, rfl, hdl.symm, fun c hc => mem_infix_missingColumnsMessage c _ hc⟩

/-- Witness for claim C7 at a concrete CSV lacking flight_code. -/
theorem claim7_witness :
    (parseFlightsCsv exMissingCsv).flights = [] ∧
    (parseFlightsCsv exMissingCsv).errors = [missingColumnsMessage (missingRequired exMissingCsv)] := by
  have h := claim7_missing_columns exMissingCsv (by decide) (by decide)
  exact ⟨h.1, h.2.1⟩

/- ===================== claims C8, C10 ===================== -/

theorem parseAirportRow_skip (cidx : MapL Nat) (line : Str)
    (h : airportField cidx line "iata_code".data = [] ∨
         parseNumber (airportField cidx line "latitude_deg".data) = none ∨
         parseNumber (airportField cidx line "longitude_deg".data) = none) :
    parseAirportRow cidx line = none := by
  unfold parseAirportRow
  by_cases hi : airportField cidx line "iata_code".data = []
  · rw [if_pos hi]
  · rw [if_neg hi]
    rcases h with h | h | h
    · exact absurd h hi
    · rw [h]
    · cases parseNumber (airportField cidx line "latitude_deg".data) <;> rw [h]

/-- Claim C8: rows with a blank IATA code or an unparseable latitude or
longitude are skipped entirely (they produce no entry, and the parser has
no error channel at all), the resulting table has no duplicate IATA keys,
and the entry stored for a code is the one of the last non-skipped data
row bearing that code (later rows overwrite earlier ones). -/
theorem claim8_airports_table (csv : Str) :
    (∀ line ∈ dataLinesOf csv,
      (airportField (cidxOf csv) line "iata_code".data = [] ∨
       parseNumber (airportField (cidxOf csv) line "latitude_deg".data) = none ∨
       parseNumber (airportField (cidxOf csv) line "longitude_deg".data) = none) →
      parseAirportRow (cidxOf csv) line = none) ∧
    (keysOf (parseAirportsCsv csv)).Nodup ∧
    (∀ code, mapGet (parseAirportsCsv csv) code =
      ((airportEntries csv).reverse.find? (fun e => decide (e.1 = code))).map Prod.snd) := by
  refine ⟨fun line _ h => parseAirportRow_skip (cidxOf csv) line h, ?_, ?_⟩
  · rw [parseAirportsCsv_eq_applyEntries]
    exact keysOf_applyEntries_nodup (airportEntries csv) [] List.nodup_nil
  · intro code
    rw [parseAirportsCsv_eq_applyEntries, mapGet_applyEntries]
    cases hf : (airportEntries csv).reverse.find? (fun e => decide (e.1 = code)) with
    | some e => rfl
    | none => rfl

/-- Witness for claim C8: the bad-latitude row of the example CSV is
skipped, and the code AAA maps to the entry of the last AAA row. -/
theorem claim8_witness :
    parseAirportRow (cidxOf exAirportsCsv) "x3,BBB,Bad,notanumber,5".data = none ∧
    mapGet (parseAirportsCsv exAirportsCsv) "AAA".data =
      ((airportEntries exAirportsCsv).reverse.find?
        (fun e => decide (e.1 = "AAA".data))).map Prod.snd := by
  refine ⟨(claim8_airports_table exAirportsCsv).1 _ ?_ (Or.inr (Or.inl (by decide))),
          (claim8_airports_table exAirportsCsv).2.2 "AAA".data⟩
  decide

theorem mapGet_buildColumnIndex_none (headers : List Str) (name : Str)
    (h : name ∉ headers) : mapGet (buildColumnIndex headers) name = none := by
  unfold buildColumnIndex
  have hfold : headers.enum.foldl (fun m p => mapSet m p.2 p.1) ([] : MapL Nat)
      = applyEntries [] (headers.enum.map (fun p => (p.2, p.1))) := by
    unfold applyEntries
    rw [List.foldl_map]
  rw [hfold, mapGet_applyEntries]
  have hnone : (headers.enum.map (fun p => (p.2, p.1))).reverse.find?
      (fun e => decide (e.1 = name)) = none := by
    rw [List.find?_eq_none]
    intro e he
    rw [List.mem_reverse] at he
    rcases List.mem_map.mp he with ⟨p, hp, hpe⟩
    have hsnd : p.2 ∈ headers := by
      have := List.mem_map_of_mem Prod.snd hp
      rwa [List.enum_map_snd] at this
    intro hcontra
    apply h
    rw [← hpe] at hcontra
    simp only [decide_eq_true_eq] at hcontra
    exact hcontra ▸ hsnd
  rw [hnone]
  rfl

/-- Claim C10: an airports CSV whose header lacks the iata_code, the
latitude_deg or the longitude_deg column yields the empty table: the
column lookup is absent for every data row, so every row is skipped, and
no error is reported (the parser returns only the table). -/
theorem claim10_missing_header (csv : Str)
    (h : "iata_code".data ∉ headersOf csv ∨
         "latitude_deg".data ∉ headersOf csv ∨
         "longitude_deg".data ∉ headersOf csv) :
    parseAirportsCsv csv = [] := by
  rw [parseAirportsCsv_eq_applyEntries]
  have hent : airportEntries csv = [] := by
    unfold airportEntries
    rw [List.filterMap_eq_nil_iff]
    intro line _
    apply parseAirportRow_skip
    have hfield : ∀ name : Str, name ∉ headersOf csv →
        airportField (cidxOf csv) line name = [] := by
      intro name hn
      unfold airportField cidxOf
      rw [mapGet_buildColumnIndex_none (headersOf csv) name hn]
      rfl
    rcases h with h | h | h
    · exact Or.inl (hfield _ h)
    · refine Or.inr (Or.inl ?_)
      rw [hfield _ h]
      rfl
    · refine Or.inr (Or.inr ?_)
      rw [hfield _ h]
      rfl
  rw [hent]
  rfl

/-- Witness for claim C10 at a concrete CSV lacking iata_code. -/
theorem claim10_witness : parseAirportsCsv exNoIataCsv = [] :=
  claim10_missing_header exNoIataCsv (Or.inl (by decide))

/- ===================== claims C2, C9 ===================== -/

theorem getAirportByCode_isSome_iff (code : Str) (airportsMap : MapL Airport)
    (replacements : MapL Str) :
    (getAirportByCode code airportsMap replacements).isSome = true ↔
      resolvesSpec code airportsMap replacements := by
  unfold getAirportByCode resolvesSpec
  cases hm : mapGet airportsMap code with
  | some a => simp [hm]
  | none =>
    simp only [hm, ne_eq, not_true_eq_false, false_or, true_and]
    by_cases hr : mapHas replacements code
    · rw [if_pos hr]
      have hsome : (mapGet replacements code).isSome = true := by
        unfold mapHas at hr
        unfold mapGet
        rw [Option.isSome_map', List.find?_isSome]
        exact List.any_eq_true.mp hr
      rcases Option.isSome_iff_exists.mp hsome with ⟨c, hc⟩
      rw [hc]
      constructor
      · intro hs
        exact ⟨c, rfl, Option.isSome_iff_ne_none.mp hs⟩
      · rintro ⟨c2, hc2, hne⟩
        cases hc2
        exact Option.isSome_iff_ne_none.mpr hne
    · rw [if_neg hr]
      have hnone : mapGet replacements code = none := by
        unfold mapHas at hr
        unfold mapGet
        rw [List.find?_eq_none.mpr, Option.map_none']
        intro p hp
        intro hcontra
        exact hr (List.any_eq_true.mpr ⟨p, hp, hcontra⟩)
      simp [hnone]

theorem build_visualizations_eq (airportsMap : MapL Airport) (replacements : MapL Str)
    (flights : List Flight) (s : BuildState) :
    (flights.foldl (buildStep airportsMap replacements) s).visualizations
      = s.visualizations ++ flights.filterMap (vizOf airportsMap replacements) := by
  induction flights generalizing s with
  | nil => simp
  | cons f t ih =>
    rw [List.foldl_cons, ih, List.filterMap_cons]
    have hstep : (buildStep airportsMap replacements s f).visualizations
        = s.visualizations ++ (match vizOf airportsMap replacements f with
            | none => [] | some v => [v]) := by
      unfold buildStep vizOf
      cases getAirportByCode f.departureAirport airportsMap replacements with
      | none => simp
      | some a =>
        cases getAirportByCode f.arrivalAirport airportsMap replacements with
        | none => simp
        | some b => simp
    rw [hstep]
    cases vizOf airportsMap replacements f with
    | none => simp
    | some v => simp

/-- Claim C2: a flight produces a FlightVisualization if and only if both its
departure and arrival codes resolve, where a code resolves when it is a key
of the airport table, or it is absent but the replacement table maps it to a
code that is a key of the airport table. -/
theorem claim2_visualize_iff (flights : List Flight) (airportsMap : MapL Airport)
    (replacements : MapL Str) (f : Flight) (hf : f ∈ flights) :
    (∃ v ∈ (buildFlightVisualizations flights airportsMap replacements).visualizations,
        v.flight = f) ↔
      (resolvesSpec f.departureAirport airportsMap replacements ∧
       resolvesSpec f.arrivalAirport airportsMap replacements) := by
  unfold buildFlightVisualizations
  dsimp only
  rw [build_visualizations_eq, List.nil_append]
  constructor
  · rintro ⟨v, hv, hvf⟩
    rcases List.mem_filterMap.mp hv with ⟨g, _, hgv⟩
    have hkey : v.flight = g ∧
        resolvesSpec g.departureAirport airportsMap replacements ∧
        resolvesSpec g.arrivalAirport airportsMap replacements := by
      unfold vizOf at hgv
      cases h1 : getAirportByCode g.departureAirport airportsMap replacements with
      | none => rw [h1] at hgv; cases hgv
      | some a =>
        rw [h1] at hgv
        cases h2 : getAirportByCode g.arrivalAirport airportsMap replacements with
        | none => rw [h2] at hgv; cases hgv
        | some b =>
          rw [h2] at hgv
          refine ⟨?_, ?_, ?_⟩
          · cases hgv; rfl
          · exact (getAirportByCode_isSome_iff _ _ _).mp (by rw [h1]; rfl)
          · exact (getAirportByCode_isSome_iff _ _ _).mp (by rw [h2]; rfl)
    have hgf : g = f := by rw [← hkey.1, hvf]
    rw [← hgf]
    exact hkey.2
  · rintro ⟨h1, h2⟩
    rw [← getAirportByCode_isSome_iff] at h1 h2
    rcases Option.isSome_iff_exists.mp h1 with ⟨a, ha⟩
    rcases Option.isSome_iff_exists.mp h2 with ⟨b, hb⟩
    refine ⟨createFlightVisualization f a b, ?_, rfl⟩
    apply List.mem_filterMap.mpr
    refine ⟨f, hf, ?_⟩
    unfold vizOf
    rw [ha, hb]

/-- Witness for claim C2: a concrete resolvable flight yields a visualization. -/
theorem claim2_witness :
    ∃ v ∈ (buildFlightVisualizations [exFlight] exAirportsMap []).visualizations,
      v.flight = exFlight :=
  (claim2_visualize_iff [exFlight] exAirportsMap [] exFlight (by simp)).mpr
    ⟨Or.inl (by decide), Or.inl (by decide)⟩

theorem build_errors_add_vis_length (airportsMap : MapL Airport) (replacements : MapL Str)
    (flights : List Flight) (s : BuildState) :
    (flights.foldl (buildStep airportsMap replacements) s).errors.length
      + (flights.foldl (buildStep airportsMap replacements) s).visualizations.length
      = s.errors.length + s.visualizations.length + flights.length := by
  induction flights generalizing s with
  | nil => simp
  | cons f t ih =>
    rw [List.foldl_cons, ih]
    have hstep : (buildStep airportsMap replacements s f).errors.length
        + (buildStep airportsMap replacements s f).visualizations.length
        = s.errors.length + s.visualizations.length + 1 := by
      unfold buildStep
      cases getAirportByCode f.departureAirport airportsMap replacements with
      | none => simp; omega
      | some a =>
        cases getAirportByCode f.arrivalAirport airportsMap replacements with
        | none => simp; omega
        | some b => simp; omega
    simp only [List.length_cons]
    omega

/-- Claim C9: a flight whose departure code fails to resolve contributes
exactly one error (in general, errors and visualizations together count one
per flight), the arrival code is not added to unresolvedAirports even when
it is itself unresolvable (the arrival lookup is short-circuited away), and
the arrival code is still recorded in distinctAirports. -/
theorem claim9_departure_short_circuit (airportsMap : MapL Airport)
    (replacements : MapL Str) (flights : List Flight) (f : Flight)
    (hdep : getAirportByCode f.departureAirport airportsMap replacements = none) :
    ((buildFlightVisualizations flights airportsMap replacements).errors.length
       + (buildFlightVisualizations flights airportsMap replacements).visualizations.length
       = flights.length) ∧
    (buildFlightVisualizations [f] airportsMap replacements).errors
      = [departureErrorMessage f] ∧
    (buildFlightVisualizations [f] airportsMap replacements).unresolvedAirports
      = [f.departureAirport] ∧
    (f.arrivalAirport ≠ f.departureAirport →
      f.arrivalAirport ∉
        (buildFlightVisualizations [f] airportsMap replacements).unresolvedAirports) ∧
    f.arrivalAirport ∈
      (buildFlightVisualizations [f] airportsMap replacements).distinctAirports := by
  have hsingle : buildFlightVisualizations [f] airportsMap replacements =
      { visualizations := [],
        totalFlightsParsed := 1,
        distinctAirports := setAdd (setAdd [] f.departureAirport) f.arrivalAirport,
        errors := [departureErrorMessage f],
        unresolvedAirports := [f.departureAirport] } := by
    unfold buildFlightVisualizations
    dsimp only [List.foldl_cons, List.foldl_nil]
    unfold buildStep
    rw [hdep]
    rfl
  refine ⟨?_, ?_, ?_, ?_, ?_⟩
  · unfold buildFlightVisualizations
    dsimp only
    have := build_errors_add_vis_length airportsMap replacements flights
      { visualizations := [], errors := [], unresolvedAirports := [], distinctAirports := [] }
    simpa using this
  · rw [hsingle]
  · rw [hsingle]
  · rw [hsingle]
    intro hne
    simp [hne]
  · rw [hsingle]
    have h0 : setAdd ([] : List Str) f.departureAirport = [f.departureAirport] := rfl
    show f.arrivalAirport ∈ setAdd (setAdd [] f.departureAirport) f.arrivalAirport
    rw [h0]
    unfold setAdd
    by_cases harr : f.arrivalAirport ∈ [f.departureAirport]
    · rw [if_pos harr]
      exact harr
    · rw [if_neg harr]
      simp

/-- Witness for claim C9 at a concrete unresolvable flight. -/
theorem claim9_witness :
    (buildFlightVisualizations [exFlightBad] [] []).errors
        = [departureErrorMessage exFlightBad] ∧
    "YYY".data ∉ (buildFlightVisualizations [exFlightBad] [] []).unresolvedAirports := by
  have h := claim9_departure_short_circuit [] [] [exFlightBad] exFlightBad (by decide)
  exact ⟨h.2.1, h.2.2.2.1 (by decide)⟩

/- ===================== claim C3 ===================== -/

/-- Claim C3: with a positive maximum frequency the frequency-to-color map
buckets the ratio count/max with boundaries inclusive on the lower bucket
(ratio up to 0.15 blue, up to 0.3 cyan, up to 0.5 green, up to 0.75 orange,
above that red), and with a zero maximum frequency every input maps to the
single default color. -/
theorem claim3_frequency_color (frequency maxFrequency : ℚ) :
    (0 < maxFrequency →
      ((frequency / maxFrequency ≤ 0.15 →
          getFrequencyColor frequency maxFrequency = colorBlue) ∧
       (0.15 < frequency / maxFrequency ∧ frequency / maxFrequency ≤ 0.3 →
          getFrequencyColor frequency maxFrequency = colorCyan) ∧
       (0.3 < frequency / maxFrequency ∧ frequency / maxFrequency ≤ 0.5 →
          getFrequencyColor frequency maxFrequency = colorGreen) ∧
       (0.5 < frequency / maxFrequency ∧ frequency / maxFrequency ≤ 0.75 →
          getFrequencyColor frequency maxFrequency = colorOrange) ∧
       (0.75 < frequency / maxFrequency →
          getFrequencyColor frequency maxFrequency = colorRed))) ∧
    (maxFrequency = 0 → getFrequencyColor frequency maxFrequency = defaultBlue) := by
  constructor
  · intro hpos
    have hne : maxFrequency ≠ 0 := ne_of_gt hpos
    unfold getFrequencyColor
    rw [if_neg hne]
    refine ⟨?_, ?_, ?_, ?_, ?_⟩
    · intro h
      rw [if_pos h]
    · rintro ⟨h1, h2⟩
      rw [if_neg (not_le.mpr h1), if_pos h2]
    · rintro ⟨h1, h2⟩
      rw [if_neg (not_le.mpr (lt_of_le_of_lt (by norm_num) h1)),
          if_neg (not_le.mpr h1), if_pos h2]
    · rintro ⟨h1, h2⟩
      rw [if_neg (not_le.mpr (lt_of_le_of_lt (by norm_num) h1)),
          if_neg (not_le.mpr (lt_of_le_of_lt (by norm_num) h1)),
          if_neg (not_le.mpr h1), if_pos h2]
    · intro h1
      rw [if_neg (not_le.mpr (lt_of_le_of_lt (by norm_num) h1)),
          if_neg (not_le.mpr (lt_of_le_of_lt (by norm_num) h1)),
          if_neg (not_le.mpr (lt_of_le_of_lt (by norm_num) h1)),
          if_neg (not_le.mpr h1)]
  · intro h0
    unfold getFrequencyColor
    rw [if_pos h0]

/-- Witness for claim C3 at the exact boundary values of the claim. -/
theorem claim3_witness :
    getFrequencyColor 3 20 = colorBlue ∧
    getFrequencyColor 151 1000 = colorCyan ∧
    getFrequencyColor 7 0 = defaultBlue := by
  refine ⟨((claim3_frequency_color 3 20).1 (by norm_num)).1 (by norm_num),
          (((claim3_frequency_color 151 1000).1 (by norm_num)).2.1
            ⟨by norm_num, by norm_num⟩),
          (claim3_frequency_color 7 0).2 rfl⟩

/- ===================== claim C4 ===================== -/

theorem mem_setAdd_iff (s : List Str) (k' k : Str) :
    k ∈ setAdd s k' ↔ k ∈ s ∨ k = k' := by
  unfold setAdd
  by_cases h : k' ∈ s
  · rw [if_pos h]
    constructor
    · exact Or.inl
    · rintro (hk | rfl)
      · exact hk
      · exact h
  · rw [if_neg h]
    rw [List.mem_append, List.mem_singleton]

theorem append_dash_inj (a : Str) (b : Str) (c : Str) (d : Str)
    (ha : '-' ∉ a) (hc : '-' ∉ c)
    (h : a ++ '-' :: b = c ++ '-' :: d) : a = c ∧ b = d := by
  induction a generalizing c with
  | nil =>
    cases c with
    | nil =>
      simp only [List.nil_append] at h
      exact ⟨rfl, (List.cons.inj h).2⟩
    | cons x xs =>
      simp only [List.nil_append, List.cons_append] at h
      have hx := (List.cons.inj h).1
      exact absurd (List.mem_cons.mpr (Or.inl hx)) hc
  | cons y ys ih =>
    cases c with
    | nil =>
      simp only [List.cons_append, List.nil_append] at h
      have hy := (List.cons.inj h).1
      exact absurd (List.mem_cons.mpr (Or.inl hy.symm)) ha
    | cons x xs =>
      simp only [List.cons_append] at h
      have hyx := (List.cons.inj h).1
      have hrest := (List.cons.inj h).2
      have ha2 : '-' ∉ ys := fun hm => ha (List.mem_cons_of_mem y hm)
      have hc2 : '-' ∉ xs := fun hm => hc (List.mem_cons_of_mem x hm)
      obtain ⟨h1, h2⟩ := ih xs ha2 hc2 hrest
      exact ⟨by rw [hyx, h1], h2⟩

theorem sortPairJS_cases (a b : Str) :
    sortPairJS a b = (a, b) ∨ sortPairJS a b = (b, a) := by
  unfold sortPairJS
  by_cases h : strLt b a
  · rw [if_pos h]
    exact Or.inr rfl
  · rw [if_neg h]
    exact Or.inl rfl

theorem sortPairJS_eq_pair (a b c d : Str) (h : sortPairJS a b = sortPairJS c d) :
    (a = c ∧ b = d) ∨ (a = d ∧ b = c) := by
  rcases sortPairJS_cases a b with h1 | h1 <;>
    rcases sortPairJS_cases c d with h2 | h2 <;>
      rw [h1, h2] at h <;>
        [exact Or.inl ⟨(Prod.mk.inj h).1, (Prod.mk.inj h).2⟩;
         exact Or.inr ⟨(Prod.mk.inj h).1, (Prod.mk.inj h).2⟩;
         exact Or.inr ⟨(Prod.mk.inj h).2, (Prod.mk.inj h).1⟩;
         exact Or.inl ⟨(Prod.mk.inj h).2, (Prod.mk.inj h).1⟩]

theorem routeKey_eq_direction (v w : FlightVisualizationData)
    (hv : '-' ∉ v.fromAirport.iataCode ∧ '-' ∉ v.toAirport.iataCode)
    (hw : '-' ∉ w.fromAirport.iataCode ∧ '-' ∉ w.toAirport.iataCode)
    (h : routeKey w = routeKey v) :
    (w.fromAirport.iataCode = v.fromAirport.iataCode ∧
     w.toAirport.iataCode = v.toAirport.iataCode) ∨
    (w.fromAirport.iataCode = v.toAirport.iataCode ∧
     w.toAirport.iataCode = v.fromAirport.iataCode) := by
  have hw1 : '-' ∉ (sortPairJS w.fromAirport.iataCode w.toAirport.iataCode).1 := by
    rcases sortPairJS_cases w.fromAirport.iataCode w.toAirport.iataCode with hs | hs <;>
      rw [hs] <;> [exact hw.1; exact hw.2]
  have hv1 : '-' ∉ (sortPairJS v.fromAirport.iataCode v.toAirport.iataCode).1 := by
    rcases sortPairJS_cases v.fromAirport.iataCode v.toAirport.iataCode with hs | hs <;>
      rw [hs] <;> [exact hv.1; exact hv.2]
  unfold routeKey at h
  have h2 : (sortPairJS w.fromAirport.iataCode w.toAirport.iataCode).1 ++
      '-' :: (sortPairJS w.fromAirport.iataCode w.toAirport.iataCode).2 =
      (sortPairJS v.fromAirport.iataCode v.toAirport.iataCode).1 ++
      '-' :: (sortPairJS v.fromAirport.iataCode v.toAirport.iataCode).2 := by
    simpa using h
  obtain ⟨hfst, hsnd⟩ := append_dash_inj _ _ _ _ hw1 hv1 h2
  have hpair : sortPairJS w.fromAirport.iataCode w.toAirport.iataCode =
      sortPairJS v.fromAirport.iataCode v.toAirport.iataCode := by
    exact Prod.ext hfst hsnd
  exact sortPairJS_eq_pair _ _ _ _ hpair

theorem drawnRoutesAux_shape (all : List FlightVisualizationData) :
    ∀ (vs : List FlightVisualizationData) (seen : List Str) (d : RouteDraw),
      d ∈ drawnRoutesAux all vs seen →
      d.rep ∈ vs ∧ routeKey d.rep ∉ seen ∧
      d.outbound = (all.filter (fun w => decide (routeKey w = routeKey d.rep))).filter
        (outboundFilter d.rep) ∧
      d.ret = (all.filter (fun w => decide (routeKey w = routeKey d.rep))).filter
        (returnFilter d.rep) := by
  intro vs
  induction vs with
  | nil =>
    intro seen d hd
    cases hd
  | cons v vs ih =>
    intro seen d hd
    unfold drawnRoutesAux at hd
    by_cases hk : routeKey v ∈ seen
    · rw [if_pos hk] at hd
      obtain ⟨h1, h2, h3, h4⟩ := ih seen d hd
      exact ⟨List.mem_cons_of_mem v h1, h2, h3, h4⟩
    · rw [if_neg hk] at hd
      rcases List.mem_cons.mp hd with rfl | hd2
      · exact ⟨List.mem_cons_self _ _, hk, rfl, rfl⟩
      · obtain ⟨h1, h2, h3, h4⟩ := ih (setAdd seen (routeKey v)) d hd2
        refine ⟨List.mem_cons_of_mem v h1, ?_, h3, h4⟩
        intro hmem
        exact h2 ((mem_setAdd_iff seen (routeKey v) (routeKey d.rep)).mpr (Or.inl hmem))

theorem drawnRoutesAux_props (all : List FlightVisualizationData) :
    ∀ (vs pre : List FlightVisualizationData) (seen : List Str),
      all = pre ++ vs →
      (∀ k, k ∈ seen ↔ ∃ u ∈ pre, routeKey u = k) →
      (((drawnRoutesAux all vs seen).map (fun d => routeKey d.rep)).Nodup ∧
       (∀ v ∈ vs, routeKey v ∈ seen ∨
          ∃ d ∈ drawnRoutesAux all vs seen, routeKey d.rep = routeKey v) ∧
       (∀ d ∈ drawnRoutesAux all vs seen,
          all.find? (fun w => decide (routeKey w = routeKey d.rep)) = some d.rep)) := by
  intro vs
  induction vs with
  | nil =>
    intro pre seen hall hseen
    refine ⟨by simp [drawnRoutesAux], by simp, ?_⟩
    intro d hd
    cases hd
  | cons v vs ih =>
    intro pre seen hall hseen
    have hall2 : all = (pre ++ [v]) ++ vs := by rw [hall]; simp
    unfold drawnRoutesAux
    by_cases hk : routeKey v ∈ seen
    · rw [if_pos hk]
      have hseen2 : ∀ k, k ∈ seen ↔ ∃ u ∈ pre ++ [v], routeKey u = k := by
        intro k
        rw [hseen k]
        constructor
        · rintro ⟨u, hu, huk⟩
          exact ⟨u, List.mem_append_left _ hu, huk⟩
        · rintro ⟨u, hu, huk⟩
          rcases List.mem_append.mp hu with hu | hu
          · exact ⟨u, hu, huk⟩
          · rw [List.mem_singleton] at hu
            rw [hu] at huk
            rcases (hseen (routeKey v)).mp hk with ⟨u2, hu2, hu2k⟩
            exact ⟨u2, hu2, hu2k.trans huk⟩
      obtain ⟨p1, p2, p3⟩ := ih (pre ++ [v]) seen hall2 hseen2
      refine ⟨p1, ?_, p3⟩
      intro w hw
      rcases List.mem_cons.mp hw with rfl | hw2
      · exact Or.inl hk
      · exact p2 w hw2
    · rw [if_neg hk]
      have hseen2 : ∀ k, k ∈ setAdd seen (routeKey v) ↔
          ∃ u ∈ pre ++ [v], routeKey u = k := by
        intro k
        rw [mem_setAdd_iff]
        constructor
        · rintro (hks | rfl)
          · rcases (hseen k).mp hks with ⟨u, hu, huk⟩
            exact ⟨u, List.mem_append_left _ hu, huk⟩
          · exact ⟨v, List.mem_append_right _ (List.mem_singleton.mpr rfl), rfl⟩
        · rintro ⟨u, hu, huk⟩
          rcases List.mem_append.mp hu with hu | hu
          · exact Or.inl ((hseen k).mpr ⟨u, hu, huk⟩)
          · rw [List.mem_singleton] at hu
            subst hu
            exact Or.inr huk.symm
      obtain ⟨p1, p2, p3⟩ := ih (pre ++ [v]) (setAdd seen (routeKey v)) hall2 hseen2
      have hrec := drawnRoutesAux_shape all vs (setAdd seen (routeKey v))
      refine ⟨?_, ?_, ?_⟩
      · rw [List.map_cons]
        rw [List.nodup_cons]
        refine ⟨?_, p1⟩
        intro hmem
        rcases List.mem_map.mp hmem with ⟨d, hd, hdk⟩
        have h2 := (hrec d hd).2.1
        exact h2 (hdk ▸ (mem_setAdd_iff seen (routeKey v) (routeKey v)).mpr (Or.inr rfl))
      · intro w hw
        rcases List.mem_cons.mp hw with rfl | hw2
        · exact Or.inr ⟨_, List.mem_cons_self _ _, rfl⟩
        · rcases p2 w hw2 with hks | ⟨d, hd, hdk⟩
          · rcases (mem_setAdd_iff seen (routeKey v) (routeKey w)).mp hks with hks2 | hks2
            · exact Or.inl hks2
            · exact Or.inr ⟨_, List.mem_cons_self _ _, hks2.symm⟩
          · exact Or.inr ⟨d, List.mem_cons_of_mem _ hd, hdk⟩
      · intro d hd
        rcases List.mem_cons.mp hd with rfl | hd2
        · dsimp only
          have hpre : ∀ u ∈ pre, ¬ (decide (routeKey u = routeKey v) = true) := by
            intro u hu hcontra
            rw [decide_eq_true_eq] at hcontra
            exact hk ((hseen (routeKey v)).mpr ⟨u, hu, hcontra⟩)
          rw [hall, List.find?_append, List.find?_eq_none.mpr hpre]
          simp [List.find?]
        · exact p3 d hd2

/-- Claim C4: the rendering pass draws exactly one route geometry group per
unordered airport pair present in the set (route keys of drawn groups are
distinct and cover every visualization's key), each group is drawn in the
first-encountered direction (its representative is the first visualization
with that key), and its popup content lists exactly the flights of the pair,
split into outbound and return sub-groups by direction match against the
first-encountered flight.  The hypothesis that IATA codes contain no dash
expresses that codes are genuine IATA codes, on which the key join is
injective. -/
theorem claim4_route_dedup (vizs : List FlightVisualizationData)
    (hdash : dashFreeVizs vizs) :
    ((drawnRoutes vizs).map (fun d => routeKey d.rep)).Nodup ∧
    (∀ v ∈ vizs, ∃ d ∈ drawnRoutes vizs, routeKey d.rep = routeKey v) ∧
    (∀ d ∈ drawnRoutes vizs,
       vizs.find? (fun w => decide (routeKey w = routeKey d.rep)) = some d.rep) ∧
    (∀ d ∈ drawnRoutes vizs, ∀ w ∈ vizs, routeKey w = routeKey d.rep →
       w ∈ d.outbound ∨ w ∈ d.ret) ∧
    (∀ d ∈ drawnRoutes vizs, ∀ w, (w ∈ d.outbound ∨ w ∈ d.ret) →
       w ∈ vizs ∧ routeKey w = routeKey d.rep) := by
  have hseen0 : ∀ k : Str, k ∈ ([] : List Str) ↔ ∃ u ∈ ([] : List FlightVisualizationData), routeKey u = k := by
    simp
  obtain ⟨p1, p2, p3⟩ := drawnRoutesAux_props vizs vizs [] [] (by simp) hseen0
  refine ⟨p1, ?_, p3, ?_, ?_⟩
  · intro v hv
    rcases p2 v hv with hfalse | h
    · cases hfalse
    · exact h
  · intro d hd w hw hkey
    obtain ⟨hrep, _, hout, hret⟩ := drawnRoutesAux_shape vizs vizs [] d hd
    have hgroup : w ∈ vizs.filter (fun u => decide (routeKey u = routeKey d.rep)) :=
      List.mem_filter.mpr ⟨hw, by rw [decide_eq_true_eq]; exact hkey⟩
    rcases routeKey_eq_direction d.rep w (hdash d.rep hrep) (hdash w hw) hkey with hdir | hdir
    · left
      rw [hout]
      refine List.mem_filter.mpr ⟨hgroup, ?_⟩
      unfold outboundFilter
      rw [Bool.and_eq_true, decide_eq_true_eq, decide_eq_true_eq]
      exact hdir
    · right
      rw [hret]
      refine List.mem_filter.mpr ⟨hgroup, ?_⟩
      unfold returnFilter
      rw [Bool.and_eq_true, decide_eq_true_eq, decide_eq_true_eq]
      exact hdir
  · intro d hd w hw
    obtain ⟨_, _, hout, hret⟩ := drawnRoutesAux_shape vizs vizs [] d hd
    have hgroup : w ∈ vizs.filter (fun u => decide (routeKey u = routeKey d.rep)) := by
      rcases hw with hw | hw
      · rw [hout] at hw
        exact (List.mem_filter.mp hw).1
      · rw [hret] at hw
        exact (List.mem_filter.mp hw).1
    have hm := List.mem_filter.mp hgroup
    exact ⟨hm.1, by have := hm.2; rwa [decide_eq_true_eq] at this⟩

/-- Witness for claim C4 at a concrete bidirectional pair. -/
theorem claim4_witness :
    ((drawnRoutes exVizs).map (fun d => routeKey d.rep)).Nodup ∧
    (∃ d ∈ drawnRoutes exVizs, routeKey d.rep = routeKey exVizBA) := by
  have h := claim4_route_dedup exVizs (by unfold dashFreeVizs; decide)
  exact ⟨h.1, h.2.1 exVizBA (by decide)⟩

/- ===================== claim C5 ===================== -/

/-- Claim C5 fails on the code: stopping an in-progress playback does not
always leave the same marker set as the direct static render.  After
stopAnimation sets the abort flag, removes the plane marker and redraws the
static scene, the suspended playback coroutine resumes; the segment loop
exits at its abort check, but the flight loop's arrival block runs before
the next abort check and adds the arrival airport's marker again on top of
the redrawn scene.  At the failing input — one HEL-to-JFK flight, stop
requested during the route animation's only segment sleep — the cancelled
run ends with three markers (HEL, JFK, JFK) while the direct static render
has two (HEL, JFK), so the two scenes differ. -/
theorem claim5_cancellation_artifact :
    (runCancelled geoLine 4 [exVizAB] 0).markers.length = 3 ∧
    (visualizeFlightsModel geoLine 4 [exVizAB] emptyScene).markers.length = 2 ∧
    runCancelled geoLine 4 [exVizAB] 0 ≠
      visualizeFlightsModel geoLine 4 [exVizAB] emptyScene := by
  have h1 : (runCancelled geoLine 4 [exVizAB] 0).markers.length = 3 := by decide
  have h2 : (visualizeFlightsModel geoLine 4 [exVizAB] emptyScene).markers.length = 2 := by
    decide
  refine ⟨h1, h2, ?_⟩
  intro heq
  rw [heq, h2] at h1
  exact absurd h1 (by decide)

end FV
